import Mathlib

/-!
Relay core of `server.js`.

Shallow embedding of the WebSocket part of `src/server.js` (lines 144-177):
the module-level variable `espClient` and the three callbacks registered by
`wss.on("connection", ...)`.

* A socket object `ws` is compared only by reference (`===`, `!==`), so a socket
  is modelled by a natural number standing for its identity.
* `data.toString()` yields a text value; the handler only compares it with two
  literals and passes it on, so the payload is a `String`.
* `espClient.send(message)` is the only output of the handlers; it is recorded
  as an outbound frame `(target socket, text)`.
* `console.log` calls have no effect on the relay and are left out.
-/

namespace Relay

/-- Identity of a socket object handed to the `connection` callback. -/
abbrev Session := Nat

/-- One call of `send(message)` on a socket: the socket it is called on and the text. -/
structure Frame where
  target : Session
  payload : String
deriving DecidableEq, Repr

/-- The state of the WebSocket server: `clients` is the set `wss.clients` kept by
the server object (the sockets that are currently open, i.e. whose handlers are
live); `espClient` is the variable of line 147, `none` standing for `null`. -/
structure State where
  clients : List Session
  espClient : Option Session
deriving DecidableEq, Repr

/-- State right after line 147: no socket has connected, `espClient = null`. -/
def initialState : State := ⟨[], none⟩

/-- The test of line 157: `message === "ESP32" || message === "ESP32 connected"`. -/
def isAnnouncement (message : String) : Bool :=
  message == "ESP32" || message == "ESP32 connected"

/-- The `ws.on("message", ...)` handler (lines 152-168), as a function of the
variable `espClient`, the socket `ws` the handler belongs to and the received
text. Returns the new value of `espClient` and the frames sent. -/
def onMessage (espClient : Option Session) (ws : Session) (message : String) :
    Option Session × List Frame :=
  if isAnnouncement message then
    -- espClient = ws; return;
    (some ws, [])
  else
    -- if (espClient && espClient !== ws) espClient.send(message);
    match espClient with
    | some esp => if esp ≠ ws then (espClient, [⟨esp, message⟩]) else (espClient, [])
    | none => (espClient, [])

/-- The `ws.on("close", ...)` handler (lines 170-176): new value of `espClient`. -/
def onClose (espClient : Option Session) (ws : Session) : Option Session :=
  if some ws = espClient then none else espClient

/-- The body of the `connection` callback (lines 149-177) only registers the two
handlers on `ws`; it neither reads nor writes `espClient`. -/
def onConnection (espClient : Option Session) (_ws : Session) : Option Session :=
  espClient

/-- What the event loop can deliver to the server. -/
inductive Event where
  | connection (ws : Session)
  | message (ws : Session) (data : String)
  | close (ws : Session)
deriving DecidableEq, Repr

/-- One event: the server object keeps `clients` up to date (a socket is added when
it connects and deleted when it closes) and the registered callback runs. -/
def step (st : State) : Event → State × List Frame
  | .connection ws =>
      (⟨if ws ∈ st.clients then st.clients else ws :: st.clients,
        onConnection st.espClient ws⟩, [])
  | .message ws data =>
      let r := onMessage st.espClient ws data
      (⟨st.clients, r.1⟩, r.2)
  | .close ws =>
      (⟨st.clients.filter (fun c => c ≠ ws), onClose st.espClient ws⟩, [])

/-- Runs a sequence of events; the frames are collected in the order they are sent. -/
def run (st : State) : List Event → State × List Frame
  | [] => (st, [])
  | e :: es =>
      let r := step st e
      let rest := run r.1 es
      (rest.1, r.2 ++ rest.2)

/-- For each event of the sequence, in order: the state right after that event and
the frames that event sent. -/
def trace (st : State) : List Event → List (State × List Frame)
  | [] => []
  | e :: es => step st e :: trace (step st e).1 es

/-- An event that is a message carrying one of the two identity literals. -/
def Event.isAnnounce : Event → Bool
  | .message _ data => isAnnouncement data
  | _ => false

/-- Whether an event can occur in a given situation: `seen` lists every socket
that has ever connected. A connecting socket is a new object, different from every
earlier one; messages and closes are delivered only for sockets that are open. -/
def Event.enabled (seen : List Session) (st : State) : Event → Bool
  | .connection ws => !(seen.contains ws)
  | .message ws _ => st.clients.contains ws
  | .close ws => st.clients.contains ws

/-- The sockets that have ever connected, after one more event. -/
def seenAfter (seen : List Session) : Event → List Session
  | .connection ws => ws :: seen
  | _ => seen

/-- A sequence of events that can really occur from state `st` with history `seen`. -/
def wellFormed (seen : List Session) (st : State) : List Event → Bool
  | [] => true
  | e :: es => e.enabled seen st && wellFormed (seenAfter seen e) (step st e).1 es

/-- Texts that come close to an identity literal without being one: a literal
followed or preceded by more characters, a literal in another letter case, and the
empty text. -/
def nearMisses : List String :=
  ["ESP32 connected!", "ESP32 ", "ESP32\n", " ESP32", "esp32", "ESP32 Connected", ""]

/-- The device slot refers to an open socket whenever it is not empty. -/
def DeviceOpen (st : State) : Prop :=
  ∀ d, st.espClient = some d → d ∈ st.clients

/-- An event that neither announces an identity nor closes session `s`. -/
def Event.keeps (s : Session) (e : Event) : Prop :=
  e.isAnnounce = false ∧ e ≠ Event.close s

/-! ## Basic facts about the handlers -/

theorem isAnnouncement_iff (message : String) :
    isAnnouncement message = true ↔ message = "ESP32" ∨ message = "ESP32 connected" := by
  simp [isAnnouncement]

theorem isAnnouncement_false_iff (message : String) :
    isAnnouncement message = false ↔ message ≠ "ESP32" ∧ message ≠ "ESP32 connected" := by
  simp [isAnnouncement]

theorem onMessage_announce (esp : Option Session) (ws : Session) (m : String)
    (h : isAnnouncement m = true) : onMessage esp ws m = (some ws, []) := by
  simp [onMessage, h]

theorem onMessage_forward (d ws : Session) (m : String)
    (h : isAnnouncement m = false) (hne : d ≠ ws) :
    onMessage (some d) ws m = (some d, [⟨d, m⟩]) := by
  simp [onMessage, h, hne]

theorem onMessage_self (ws : Session) (m : String)
    (h : isAnnouncement m = false) :
    onMessage (some ws) ws m = (some ws, []) := by
  simp [onMessage, h]

theorem onMessage_none (ws : Session) (m : String)
    (h : isAnnouncement m = false) :
    onMessage none ws m = (none, []) := by
  simp [onMessage, h]

theorem onMessage_command_slot (esp : Option Session) (ws : Session) (m : String)
    (h : isAnnouncement m = false) : (onMessage esp ws m).1 = esp := by
  unfold onMessage
  rw [h]
  cases esp with
  | none => rfl
  | some d => by_cases hd : d = ws <;> simp [hd]

theorem step_message_command_slot (st : State) (ws : Session) (m : String)
    (h : isAnnouncement m = false) :
    (step st (.message ws m)).1.espClient = st.espClient := by
  simp [step, onMessage_command_slot _ _ _ h]

/-! ## Single-event properties -/

/-- C1 (forwarding correctness): when the device slot holds `D`, a message from a
different session `C` whose text is neither of the two identity literals sends
exactly one frame, to `D`, carrying the text unchanged; no frame goes to any other
session (none to `C`), and the device slot still holds `D`. -/
theorem forwarding_correct (st : State) (D C : Session) (p : String)
    (hD : st.espClient = some D) (hne : C ≠ D)
    (hp1 : p ≠ "ESP32") (hp2 : p ≠ "ESP32 connected") :
    (step st (.message C p)).2 = [⟨D, p⟩] ∧
    (∀ f ∈ (step st (.message C p)).2, f.target = D ∧ f.target ≠ C ∧ f.payload = p) ∧
    (step st (.message C p)).1.espClient = some D := by
  have h : isAnnouncement p = false := (isAnnouncement_false_iff p).2 ⟨hp1, hp2⟩
  have hfw := onMessage_forward D C p h (Ne.symm hne)
  have hfr : (step st (.message C p)).2 = [⟨D, p⟩] := by
    simp [step, hD, hfw]
  refine ⟨hfr, ?_, ?_⟩
  · intro f hf
    rw [hfr] at hf
    simp only [List.mem_singleton] at hf
    subst hf
    exact ⟨rfl, Ne.symm hne, rfl⟩
  · simp [step, hD, hfw]

theorem forwarding_correct_witness :
    (step ⟨[1, 2], some 1⟩ (.message 2 "")).2 = [⟨1, ""⟩] ∧
    (∀ f ∈ (step ⟨[1, 2], some 1⟩ (.message 2 "")).2,
      f.target = 1 ∧ f.target ≠ 2 ∧ f.payload = "") ∧
    (step ⟨[1, 2], some 1⟩ (.message 2 "")).1.espClient = some 1 :=
  forwarding_correct ⟨[1, 2], some 1⟩ 1 2 "" rfl (by decide) (by decide) (by decide)

/-- C2 (identity announcement): whatever the device slot holds (nothing, the sender,
or another session), a message whose text is "ESP32" or "ESP32 connected" makes the
sender the device and sends no frame; when the sender already was the device the
state is unchanged. -/
theorem announcement_sets_device (st : State) (s : Session) (p : String)
    (hp : p = "ESP32" ∨ p = "ESP32 connected") :
    (step st (.message s p)).1.espClient = some s ∧
    (step st (.message s p)).2 = [] ∧
    (st.espClient = some s → (step st (.message s p)).1 = st) := by
  have h : isAnnouncement p = true := (isAnnouncement_iff p).2 hp
  have ha := onMessage_announce st.espClient s p h
  refine ⟨by simp [step, ha], by simp [step, ha], ?_⟩
  intro hs
  cases st with
  | mk clients esp =>
    simp only at hs
    subst hs
    simp [step, onMessage_announce (some s) s p h]

theorem announcement_sets_device_witness :
    (step ⟨[1, 2], some 1⟩ (.message 2 "ESP32 connected")).1.espClient = some 2 ∧
    (step ⟨[1, 2], some 1⟩ (.message 2 "ESP32 connected")).2 = [] ∧
    ((⟨[1, 2], some 1⟩ : State).espClient = some 2 →
      (step ⟨[1, 2], some 1⟩ (.message 2 "ESP32 connected")).1 = ⟨[1, 2], some 1⟩) :=
  announcement_sets_device ⟨[1, 2], some 1⟩ 2 "ESP32 connected" (Or.inr rfl)

/-- C3 (silent drop): when the device slot is empty or holds the sender itself, a
message whose text is neither identity literal sends no frame at all and leaves the
whole state unchanged; the handler is a total function, so nothing is raised. -/
theorem silent_drop (st : State) (s : Session) (p : String)
    (hp1 : p ≠ "ESP32") (hp2 : p ≠ "ESP32 connected")
    (hslot : st.espClient = none ∨ st.espClient = some s) :
    (step st (.message s p)).2 = [] ∧ (step st (.message s p)).1 = st := by
  have h : isAnnouncement p = false := (isAnnouncement_false_iff p).2 ⟨hp1, hp2⟩
  cases st with
  | mk clients esp =>
    simp only at hslot
    rcases hslot with hn | hs
    · subst hn
      simp [step, onMessage_none s p h]
    · subst hs
      simp [step, onMessage_self s p h]

theorem silent_drop_witness :
    (step ⟨[1, 2], some 1⟩ (.message 1 "start")).2 = [] ∧
    (step ⟨[1, 2], some 1⟩ (.message 1 "start")).1 = ⟨[1, 2], some 1⟩ :=
  silent_drop ⟨[1, 2], some 1⟩ 1 "start" (by decide) (by decide) (Or.inr rfl)

/-- C6 (frame condition of the device slot): an event that is neither a message
carrying "ESP32" or "ESP32 connected" nor the close of the session held in the
device slot leaves the device slot as it was. -/
theorem device_slot_frame (st : State) (e : Event)
    (hmsg : ∀ ws p, e = .message ws p → p ≠ "ESP32" ∧ p ≠ "ESP32 connected")
    (hclose : ∀ ws, e = .close ws → st.espClient ≠ some ws) :
    (step st e).1.espClient = st.espClient := by
  cases e with
  | connection ws => rfl
  | message ws p =>
    exact step_message_command_slot st ws p
      ((isAnnouncement_false_iff p).2 (hmsg ws p rfl))
  | close ws =>
    have h := hclose ws rfl
    have h2 : ¬ (some ws = st.espClient) := fun hx => h hx.symm
    simp [step, onClose, h2]

theorem device_slot_frame_witness :
    (step ⟨[1, 2, 3], some 2⟩ (.close 1)).1.espClient
      = (⟨[1, 2, 3], some 2⟩ : State).espClient :=
  device_slot_frame ⟨[1, 2, 3], some 2⟩ (.close 1)
    (fun _ _ h => by cases h) (fun ws h => by cases h; decide)

/-- C7 (reassignment): for distinct sessions `A` and `B`, an identity literal from
`A` and then one from `B` leave `B` in the device slot with no frame sent; a
following message from `A` with any other text then sends exactly one frame, to
`B`, carrying that text. -/
theorem reassignment (st : State) (A B : Session) (r1 r2 p : String)
    (hAB : A ≠ B)
    (hr1 : r1 = "ESP32" ∨ r1 = "ESP32 connected")
    (hr2 : r2 = "ESP32" ∨ r2 = "ESP32 connected")
    (hp1 : p ≠ "ESP32") (hp2 : p ≠ "ESP32 connected") :
    (step st (.message A r1)).2 = [] ∧
    (step (step st (.message A r1)).1 (.message B r2)).2 = [] ∧
    (step (step st (.message A r1)).1 (.message B r2)).1.espClient = some B ∧
    (step (step (step st (.message A r1)).1 (.message B r2)).1 (.message A p)).2
      = [⟨B, p⟩] ∧
    (step (step (step st (.message A r1)).1 (.message B r2)).1 (.message A p)).1.espClient
      = some B := by
  have h1 : isAnnouncement r1 = true := (isAnnouncement_iff r1).2 hr1
  have h2 : isAnnouncement r2 = true := (isAnnouncement_iff r2).2 hr2
  have hp : isAnnouncement p = false := (isAnnouncement_false_iff p).2 ⟨hp1, hp2⟩
  have hBA : B ≠ A := Ne.symm hAB
  simp [step, onMessage, h1, h2, hp, hBA]

theorem reassignment_witness :
    (step ⟨[1, 2], none⟩ (.message 1 "ESP32")).2 = [] ∧
    (step (step ⟨[1, 2], none⟩ (.message 1 "ESP32")).1
      (.message 2 "ESP32 connected")).2 = [] ∧
    (step (step ⟨[1, 2], none⟩ (.message 1 "ESP32")).1
      (.message 2 "ESP32 connected")).1.espClient = some 2 ∧
    (step (step (step ⟨[1, 2], none⟩ (.message 1 "ESP32")).1
      (.message 2 "ESP32 connected")).1 (.message 1 "stop")).2 = [⟨2, "stop"⟩] ∧
    (step (step (step ⟨[1, 2], none⟩ (.message 1 "ESP32")).1
      (.message 2 "ESP32 connected")).1 (.message 1 "stop")).1.espClient = some 2 :=
  reassignment ⟨[1, 2], none⟩ 1 2 "ESP32" "ESP32 connected" "stop"
    (by decide) (Or.inl rfl) (Or.inr rfl) (by decide) (by decide)

/-- C8 (exact-match classification): the test of the handler succeeds exactly on
the two texts "ESP32" and "ESP32 connected"; a message is handled as an identity
announcement (sender becomes the device, nothing sent) exactly in that case, and
every other text is handled as a command: the device slot is unchanged and the
text goes unchanged to the device when the slot holds a session other than the
sender. The texts that merely contain a literal, differ in letter case, or are
empty are such commands. -/
theorem exact_match_classification :
    (∀ p : String, isAnnouncement p = true ↔ (p = "ESP32" ∨ p = "ESP32 connected")) ∧
    (∀ (st : State) (s : Session) (p : String),
      (p = "ESP32" ∨ p = "ESP32 connected") →
        step st (.message s p) = (⟨st.clients, some s⟩, [])) ∧
    (∀ (st : State) (s : Session) (p : String),
      ¬ (p = "ESP32" ∨ p = "ESP32 connected") →
        (step st (.message s p)).1.espClient = st.espClient ∧
        (∀ d, st.espClient = some d → d ≠ s →
          (step st (.message s p)).2 = [⟨d, p⟩])) ∧
    (∀ p ∈ nearMisses, isAnnouncement p = false ∧
      step ⟨[1, 2], some 1⟩ (.message 2 p) = (⟨[1, 2], some 1⟩, [⟨1, p⟩])) := by
  refine ⟨isAnnouncement_iff, ?_, ?_, ?_⟩
  · intro st s p hp
    have h : isAnnouncement p = true := (isAnnouncement_iff p).2 hp
    simp [step, onMessage_announce st.espClient s p h]
  · intro st s p hp
    have h : isAnnouncement p = false := by
      rw [isAnnouncement_false_iff]
      exact ⟨fun h1 => hp (Or.inl h1), fun h2 => hp (Or.inr h2)⟩
    refine ⟨step_message_command_slot st s p h, ?_⟩
    intro d hd hne
    simp [step, hd, onMessage_forward d s p h hne]
  · intro p hp
    simp only [nearMisses, List.mem_cons, List.mem_singleton, List.not_mem_nil,
      or_false] at hp
    rcases hp with h | h | h | h | h | h | h <;> subst h <;> decide

/-- C10 (end-to-end scenario): from the initial state, with three pairwise distinct
sessions, after the three connects and `A` announcing itself the device slot holds
`A`; the frames sent over the whole sequence are "start" then "stop", both to `A`;
after `A` closes the device slot is empty; and the last "start" from `B` sends
nothing. -/
theorem end_to_end (A B C : Session) (hAB : A ≠ B) (hAC : A ≠ C) (hBC : B ≠ C) :
    (run initialState [.connection A, .connection B, .connection C,
      .message A "ESP32 connected"]).1.espClient = some A ∧
    (run initialState [.connection A, .connection B, .connection C,
      .message A "ESP32 connected", .message B "start", .message C "stop",
      .close A, .message B "start"]).2 = [⟨A, "start"⟩, ⟨A, "stop"⟩] ∧
    (run initialState [.connection A, .connection B, .connection C,
      .message A "ESP32 connected", .message B "start", .message C "stop",
      .close A]).1.espClient = none ∧
    (step (run initialState [.connection A, .connection B, .connection C,
      .message A "ESP32 connected", .message B "start", .message C "stop",
      .close A]).1 (.message B "start")).2 = [] := by
  have e1 : isAnnouncement "ESP32 connected" = true := by decide
  have e2 : isAnnouncement "start" = false := by decide
  have e3 : isAnnouncement "stop" = false := by decide
  have _hd := hBC
  simp [run, step, onMessage, onClose, onConnection, initialState, e1, e2, e3, hAB, hAC]

theorem end_to_end_witness :
    (run initialState [.connection 1, .connection 2, .connection 3,
      .message 1 "ESP32 connected"]).1.espClient = some 1 ∧
    (run initialState [.connection 1, .connection 2, .connection 3,
      .message 1 "ESP32 connected", .message 2 "start", .message 3 "stop",
      .close 1, .message 2 "start"]).2 = [⟨1, "start"⟩, ⟨1, "stop"⟩] ∧
    (run initialState [.connection 1, .connection 2, .connection 3,
      .message 1 "ESP32 connected", .message 2 "start", .message 3 "stop",
      .close 1]).1.espClient = none ∧
    (step (run initialState [.connection 1, .connection 2, .connection 3,
      .message 1 "ESP32 connected", .message 2 "start", .message 3 "stop",
      .close 1]).1 (.message 2 "start")).2 = [] :=
  end_to_end 1 2 3 (by decide) (by decide) (by decide)

/-! ## Properties of event sequences -/

theorem run_cons (st : State) (e : Event) (es : List Event) :
    run st (e :: es) = ((run (step st e).1 es).1, (step st e).2 ++ (run (step st e).1 es).2) :=
  rfl

theorem step_idle (st : State) (e : Event) (hst : st.espClient = none)
    (he : e.isAnnounce = false) :
    (step st e).1.espClient = none ∧ (step st e).2 = [] := by
  cases e with
  | connection ws => exact ⟨hst, rfl⟩
  | message ws p =>
    have h : isAnnouncement p = false := he
    simp [step, hst, onMessage_none ws p h]
  | close ws => simp [step, onClose, hst]

theorem trace_idle (evs : List Event) :
    ∀ st : State, st.espClient = none → (∀ e ∈ evs, e.isAnnounce = false) →
      ∀ x ∈ trace st evs, x.1.espClient = none ∧ x.2 = [] := by
  induction evs with
  | nil => intro st _ _ x hx; simp [trace] at hx
  | cons e es ih =>
    intro st hst hev x hx
    have hs := step_idle st e hst (hev e (List.mem_cons_self e es))
    simp only [trace, List.mem_cons] at hx
    rcases hx with hx | hx
    · subst hx; exact hs
    · exact ih (step st e).1 hs.1 (fun e' he' => hev e' (List.mem_cons_of_mem e he')) x hx

theorem run_idle (evs : List Event) :
    ∀ st : State, st.espClient = none → (∀ e ∈ evs, e.isAnnounce = false) →
      (run st evs).1.espClient = none ∧ (run st evs).2 = [] := by
  induction evs with
  | nil => intro st hst _; exact ⟨hst, rfl⟩
  | cons e es ih =>
    intro st hst hev
    have hs := step_idle st e hst (hev e (List.mem_cons_self e es))
    have hr := ih (step st e).1 hs.1 (fun e' he' => hev e' (List.mem_cons_of_mem e he'))
    rw [run_cons]
    exact ⟨hr.1, by simp [hs.2, hr.2]⟩

theorem trace_length (evs : List Event) :
    ∀ st : State, (trace st evs).length = evs.length := by
  induction evs with
  | nil => intro st; rfl
  | cons e es ih => intro st; simp [trace, ih]

theorem isAnnounce_false_of_literals (evs : List Event)
    (hev : ∀ ws p, Event.message ws p ∈ evs → p ≠ "ESP32" ∧ p ≠ "ESP32 connected") :
    ∀ e ∈ evs, e.isAnnounce = false := by
  intro e he
  cases e with
  | connection ws => rfl
  | message ws p => exact (isAnnouncement_false_iff p).2 (hev ws p he)
  | close ws => rfl

/-- C4 (close cleanup): when the device slot holds `D`, the close of `D` empties the
slot and sends no frame; and along any following sequence of events none of which
is a message carrying "ESP32" or "ESP32 connected", after every event the slot is
still empty and that event has sent no frame. -/
theorem close_cleanup (st : State) (D : Session) (evs : List Event)
    (hD : st.espClient = some D)
    (hev : ∀ ws p, Event.message ws p ∈ evs → p ≠ "ESP32" ∧ p ≠ "ESP32 connected") :
    (step st (.close D)).1.espClient = none ∧
    (step st (.close D)).2 = [] ∧
    (trace (step st (.close D)).1 evs).length = evs.length ∧
    (∀ x ∈ trace (step st (.close D)).1 evs, x.1.espClient = none ∧ x.2 = []) ∧
    (run (step st (.close D)).1 evs).1.espClient = none ∧
    (run (step st (.close D)).1 evs).2 = [] := by
  have hc : (step st (.close D)).1.espClient = none := by
    simp [step, onClose, hD]
  have hno := isAnnounce_false_of_literals evs hev
  have hr := run_idle evs (step st (.close D)).1 hc hno
  exact ⟨hc, rfl, trace_length evs _, trace_idle evs _ hc hno, hr.1, hr.2⟩

theorem close_cleanup_witness :
    (step ⟨[1, 2, 3], some 1⟩ (.close 1)).1.espClient = none ∧
    (step ⟨[1, 2, 3], some 1⟩ (.close 1)).2 = [] ∧
    (trace (step ⟨[1, 2, 3], some 1⟩ (.close 1)).1
      [.message 2 "start", .connection 4, .close 3, .message 4 "stop"]).length
      = [Event.message 2 "start", .connection 4, .close 3, .message 4 "stop"].length ∧
    (∀ x ∈ trace (step ⟨[1, 2, 3], some 1⟩ (.close 1)).1
      [.message 2 "start", .connection 4, .close 3, .message 4 "stop"],
      x.1.espClient = none ∧ x.2 = []) ∧
    (run (step ⟨[1, 2, 3], some 1⟩ (.close 1)).1
      [.message 2 "start", .connection 4, .close 3, .message 4 "stop"]).1.espClient = none ∧
    (run (step ⟨[1, 2, 3], some 1⟩ (.close 1)).1
      [.message 2 "start", .connection 4, .close 3, .message 4 "stop"]).2 = [] :=
  close_cleanup ⟨[1, 2, 3], some 1⟩ 1
    [.message 2 "start", .connection 4, .close 3, .message 4 "stop"] rfl
    (by
      intro ws p h
      simp only [List.mem_cons, List.mem_singleton, List.not_mem_nil, or_false] at h
      rcases h with h | h | h | h
      · cases h; exact ⟨by decide, by decide⟩
      · cases h
      · cases h
      · cases h; exact ⟨by decide, by decide⟩)

theorem step_deviceOpen (seen : List Session) (st : State) (e : Event)
    (hinv : DeviceOpen st) (hen : e.enabled seen st = true) :
    DeviceOpen (step st e).1 := by
  intro d hd
  cases e with
  | connection ws =>
    have hm : d ∈ st.clients := hinv d hd
    show d ∈ (if ws ∈ st.clients then st.clients else ws :: st.clients)
    by_cases hws : ws ∈ st.clients
    · simpa [hws] using hm
    · simpa [hws] using Or.inr hm
  | message ws p =>
    have hws : ws ∈ st.clients := by simpa [Event.enabled] using hen
    show d ∈ st.clients
    have hd2 : (onMessage st.espClient ws p).1 = some d := hd
    cases hp : isAnnouncement p with
    | true =>
      rw [onMessage_announce st.espClient ws p hp] at hd2
      have : ws = d := by simpa using hd2
      exact this ▸ hws
    | false =>
      rw [onMessage_command_slot st.espClient ws p hp] at hd2
      exact hinv d hd2
  | close ws =>
    have hd2 : onClose st.espClient ws = some d := hd
    show d ∈ st.clients.filter (fun c => c ≠ ws)
    unfold onClose at hd2
    by_cases hx : some ws = st.espClient
    · simp [hx] at hd2
    · rw [if_neg hx] at hd2
      have hne : d ≠ ws := by
        intro hdw
        apply hx
        rw [hd2, hdw]
      simp [hinv d hd2, hne]

theorem run_deviceOpen (evs : List Event) :
    ∀ (seen : List Session) (st : State), DeviceOpen st →
      wellFormed seen st evs = true → DeviceOpen (run st evs).1 := by
  induction evs with
  | nil => intro _ st hinv _; exact hinv
  | cons e es ih =>
    intro seen st hinv hwf
    simp only [wellFormed, Bool.and_eq_true] at hwf
    rw [run_cons]
    exact ih (seenAfter seen e) (step st e).1 (step_deviceOpen seen st e hinv hwf.1) hwf.2

/-- C5 (the device is open): in every state reached from the initial state by a
sequence of events in which each connect brings a new session, and messages and
closes come only from sessions that are open at that moment, the device slot is
empty or holds a session that is currently open. -/
theorem device_is_open (evs : List Event)
    (hwf : wellFormed [] initialState evs = true) :
    (run initialState evs).1.espClient = none ∨
    ∃ d, (run initialState evs).1.espClient = some d ∧ d ∈ (run initialState evs).1.clients := by
  have hinit : DeviceOpen initialState := by
    intro d hd
    simp [initialState] at hd
  have h := run_deviceOpen evs [] initialState hinit hwf
  cases hs : (run initialState evs).1.espClient with
  | none => exact Or.inl rfl
  | some d => exact Or.inr ⟨d, rfl, h d hs⟩

theorem device_is_open_witness :
    (run initialState [.connection 1, .connection 2, .message 1 "ESP32",
      .message 2 "ESP32 connected", .close 1, .message 2 "start"]).1.espClient = none ∨
    ∃ d, (run initialState [.connection 1, .connection 2, .message 1 "ESP32",
      .message 2 "ESP32 connected", .close 1, .message 2 "start"]).1.espClient = some d ∧
      d ∈ (run initialState [.connection 1, .connection 2, .message 1 "ESP32",
        .message 2 "ESP32 connected", .close 1, .message 2 "start"]).1.clients :=
  device_is_open [.connection 1, .connection 2, .message 1 "ESP32",
      .message 2 "ESP32 connected", .close 1, .message 2 "start"] (by decide)

theorem step_slot_iff (st : State) (e : Event) (s : Session) :
    (step st e).1.espClient = some s ↔
      (∃ p, e = .message s p ∧ isAnnouncement p = true) ∨
      (st.espClient = some s ∧ e.keeps s) := by
  cases e with
  | connection ws =>
    simp [step, onConnection, Event.keeps, Event.isAnnounce]
  | message ws p =>
    cases hp : isAnnouncement p with
    | true =>
      simp only [step, onMessage_announce st.espClient ws p hp, Event.keeps,
        Event.isAnnounce, hp]
      constructor
      · intro h
        have hw : ws = s := by simpa using h
        exact Or.inl ⟨p, by rw [hw], hp⟩
      · rintro (⟨q, hq, _⟩ | ⟨_, h2, _⟩)
        · cases hq; rfl
        · cases h2
    | false =>
      simp [step_message_command_slot st ws p hp, Event.keeps, Event.isAnnounce, hp]
  | close ws =>
    simp only [step, onClose, Event.keeps, Event.isAnnounce]
    by_cases hx : some ws = st.espClient
    · simp only [hx, if_true]
      constructor
      · intro h; cases h
      · rintro (⟨p, hp, _⟩ | ⟨h1, _, h2⟩)
        · cases hp
        · exfalso
          apply h2
          rw [h1] at hx
          cases hx
          rfl
    · simp only [hx, if_false]
      constructor
      · intro h
        refine Or.inr ⟨h, trivial, ?_⟩
        intro hc
        cases hc
        exact hx h.symm
      · rintro (⟨p, hp, _⟩ | ⟨h1, _, _⟩)
        · cases hp
        · exact h1

theorem run_slot_iff (evs : List Event) :
    ∀ (st : State) (s : Session),
      (run st evs).1.espClient = some s ↔
        (∃ pre p post, evs = pre ++ Event.message s p :: post ∧
          isAnnouncement p = true ∧ ∀ e ∈ post, e.keeps s) ∨
        (st.espClient = some s ∧ ∀ e ∈ evs, e.keeps s) := by
  induction evs with
  | nil =>
    intro st s
    simp [run]
  | cons e es ih =>
    intro st s
    rw [run_cons]
    show (run (step st e).1 es).1.espClient = some s ↔ _
    rw [ih (step st e).1 s, step_slot_iff st e s]
    constructor
    · rintro (⟨pre, p, post, h1, h2, h3⟩ | ⟨(⟨p, hp, hp2⟩ | ⟨h1, h2⟩), h3⟩)
      · exact Or.inl ⟨e :: pre, p, post, by simp [h1], h2, h3⟩
      · exact Or.inl ⟨[], p, es, by simp [hp], hp2, h3⟩
      · refine Or.inr ⟨h1, ?_⟩
        intro e' he'
        rcases List.mem_cons.1 he' with h | h
        · exact h ▸ h2
        · exact h3 e' h
    · rintro (⟨pre, p, post, h1, h2, h3⟩ | ⟨h1, h2⟩)
      · cases pre with
        | nil =>
          simp only [List.nil_append, List.cons.injEq] at h1
          exact Or.inr ⟨Or.inl ⟨p, h1.1, h2⟩, h1.2 ▸ h3⟩
        | cons a pre' =>
          simp only [List.cons_append, List.cons.injEq] at h1
          exact Or.inl ⟨pre', p, post, h1.2, h2, h3⟩
      · exact Or.inr ⟨Or.inr ⟨h1, h2 e (List.mem_cons_self e es)⟩,
          fun e' he' => h2 e' (List.mem_cons_of_mem e he')⟩

/-- C9 (last announcement wins until disconnect): after any sequence of events from
the initial state in which connects bring new sessions and messages and closes come
only from open sessions, the device slot holds `s` exactly when the sequence
contains a message from `s` carrying "ESP32" or "ESP32 connected" after which no
event is an identity announcement or the close of `s`; when no session satisfies
this, the slot is empty. -/
theorem last_announcement_wins (evs : List Event)
    (hwf : wellFormed [] initialState evs = true) :
    (∀ s, (run initialState evs).1.espClient = some s ↔
      ∃ pre p post, evs = pre ++ Event.message s p :: post ∧
        (p = "ESP32" ∨ p = "ESP32 connected") ∧
        ∀ e ∈ post, e.isAnnounce = false ∧ e ≠ Event.close s) ∧
    ((¬ ∃ s pre p post, evs = pre ++ Event.message s p :: post ∧
        (p = "ESP32" ∨ p = "ESP32 connected") ∧
        ∀ e ∈ post, e.isAnnounce = false ∧ e ≠ Event.close s) →
      (run initialState evs).1.espClient = none) := by
  have _h := hwf
  have key : ∀ s, (run initialState evs).1.espClient = some s ↔
      ∃ pre p post, evs = pre ++ Event.message s p :: post ∧
        (p = "ESP32" ∨ p = "ESP32 connected") ∧
        ∀ e ∈ post, e.isAnnounce = false ∧ e ≠ Event.close s := by
    intro s
    rw [run_slot_iff evs initialState s]
    constructor
    · rintro (⟨pre, p, post, h1, h2, h3⟩ | ⟨h1, _⟩)
      · exact ⟨pre, p, post, h1, (isAnnouncement_iff p).1 h2, h3⟩
      · simp [initialState] at h1
    · rintro ⟨pre, p, post, h1, h2, h3⟩
      exact Or.inl ⟨pre, p, post, h1, (isAnnouncement_iff p).2 h2, h3⟩
  refine ⟨key, ?_⟩
  intro hno
  cases hs : (run initialState evs).1.espClient with
  | none => rfl
  | some d =>
    exfalso
    obtain ⟨pre, p, post, h⟩ := (key d).1 hs
    exact hno ⟨d, pre, p, post, h⟩

theorem last_announcement_wins_witness :
    ((∀ s, (run initialState [.connection 1, .connection 2, .message 1 "ESP32",
        .message 2 "ESP32 connected", .close 2]).1.espClient = some s ↔
      ∃ pre p post, [Event.connection 1, .connection 2, .message 1 "ESP32",
          .message 2 "ESP32 connected", .close 2] = pre ++ Event.message s p :: post ∧
        (p = "ESP32" ∨ p = "ESP32 connected") ∧
        ∀ e ∈ post, e.isAnnounce = false ∧ e ≠ Event.close s) ∧
    ((¬ ∃ s pre p post, [Event.connection 1, .connection 2, .message 1 "ESP32",
          .message 2 "ESP32 connected", .close 2] = pre ++ Event.message s p :: post ∧
        (p = "ESP32" ∨ p = "ESP32 connected") ∧
        ∀ e ∈ post, e.isAnnounce = false ∧ e ≠ Event.close s) →
      (run initialState [.connection 1, .connection 2, .message 1 "ESP32",
        .message 2 "ESP32 connected", .close 2]).1.espClient = none)) ∧
    (run initialState [.connection 1, .connection 2, .message 1 "ESP32",
        .message 2 "ESP32 connected", .close 2]).1.espClient = none ∧
    (run initialState [.connection 1, .connection 2, .message 1 "ESP32",
        .message 2 "ESP32 connected"]).1.espClient = some 2 :=
  ⟨last_announcement_wins [.connection 1, .connection 2, .message 1 "ESP32",
      .message 2 "ESP32 connected", .close 2] (by decide), by decide, by decide⟩

end Relay
